import Mathlib

/-!
# Offscreen effect player: request gating, worker tasks and lifecycle

A shallow embedding of `offscreen_effect_player.cpp`.

* The member variables of `offscreen_effect_player` become the fields of a
  record; every member function becomes a function on that record.
* Calls into the collaborators (render target `m_ort`, effect player `m_ep`,
  result holder `m_current_frame`, user callbacks, `std::cout`) are recorded,
  in program order, as a list of `Event`s.
* `m_scheduler` is a single worker thread fed by a queue: its state is the list
  of tasks not yet run, oldest first.
* A worker task is run as one step.  What the environment does while the task
  is running (the statuses returned by `draw()`, and the values other threads
  leave in `m_ep_stopped` through `pause`/`resume`/`stop`) is supplied by an
  `Oracle`.
* A call to the render target, to the effect player or to a user callback may
  throw instead of returning; the oracle says which calls do.  The worker
  lambdas have no handler, so a call that throws is the last statement of its
  task.  Calls on the result holder and output to `std::cout` are taken to
  return.
* A user callback is recorded as a call; what the callee does with the result
  holder it receives is not part of a task.  The receiver may lock and unlock
  the holder: these are steps of their own in the state machine, taken after
  the task.  For a binary lock flag every state the callee can bring about
  from inside the callback is reached that way as well, because on the active
  path the task's own `unlock()` follows the callback.
* The headers and the scheduler are not part of the sources.  What is taken
  from the specification instead is marked in the comment of the definition.
-/

namespace bnb.oep

/-! ## Data model -/

/-- Modelled from the spec: the orientation/rotation descriptor
`bnb::oep::interfaces::rotation`.  Its declaration is not part of the sources;
the only enumerator the code names is `deg0`, the default target orientation. -/
inductive rotation
  | deg0
  | deg90
  | deg180
  | deg270
  deriving DecidableEq, Repr

/-- The argument handed to an image-processing callback: `nullptr`
("no result") or the shared result holder `m_current_frame`. -/
inductive result_arg
  | nullptr
  | m_current_frame
  deriving DecidableEq, Repr

/-- The callback captured by a worker task,
`callback ? std::move(callback) : [](image_processing_result_sptr) {}`:
the user's callback (identified by a number) or the empty lambda that stands
in for a null one. -/
inductive task_callback
  | user (id : Nat)
  | noop
  deriving DecidableEq, Repr

/-- One externally visible call made by the player. -/
inductive Event
  | ort_init (width height : Int)
  | ort_deinit
  | ort_activate_context
  | ort_deactivate_context
  | ort_prepare_rendering
  | ort_surface_changed (width height : Int)
  | ort_orient_image (orientation : rotation)
  | ep_surface_created (width height : Int)
  | ep_surface_changed (width height : Int)
  | ep_surface_destroyed
  | ep_push_frame (image : Nat) (input_rotation : rotation) (require_mirroring : Bool)
  | ep_draw
  | ep_load_effect (effect : String)
  | ep_call_js_method (method param : String)
  | ep_eval_js (script : String) (callback : Option Nat)
  | ep_pause
  | ep_resume
  | ep_stop
  | current_frame_lock
  | current_frame_unlock
  | yield
  | sleep_for (milliseconds : Nat)
  | cout (line : String)
  | callback (cb : task_callback) (arg : result_arg)
  deriving DecidableEq, Repr

/-- The captures of the lambda built by `process_image_async`. -/
structure process_task where
  image : Nat
  callback : task_callback
  input_rotation : rotation
  require_mirroring : Bool
  target_orientation : rotation
  deriving DecidableEq, Repr

/-- A unit of work in the queue of `m_scheduler`; one constructor per lambda
that the member functions enqueue after construction. -/
inductive Task
  | process (t : process_task)
  | surface_changed (width height : Int)
  | load_effect (effect : String)
  | call_js_method (method param : String)
  | eval_js (script : String) (callback : Option Nat)
  | teardown
  deriving DecidableEq, Repr

/-- The members of `offscreen_effect_player` that the member functions read or
write.  `m_current_frame_locked` is the lock flag of the result holder
`m_current_frame`; `m_scheduler` is the queue of pending tasks, oldest first.
The in-flight counter is an integer: its declaration is not in the sources, and
the reachable-state invariant below shows that it stays within `0..5`, so that
neither its width nor its signedness matters. -/
structure offscreen_effect_player where
  m_destroy : Bool
  m_incoming_frame_queue_task_count : Int
  m_ep_stopped : Bool
  m_current_frame_locked : Bool
  m_scheduler : List Task
  deriving DecidableEq, Repr

/-- Modelled from the spec: the member initialisers of the header, which is not
part of the sources.  A freshly constructed player has no request in flight, is
running, is not being destroyed, has an unlocked result holder, and its
initialisation item has already been run (construction waits for it). -/
def offscreen_effect_player.fresh : offscreen_effect_player :=
  { m_destroy := false
    m_incoming_frame_queue_task_count := 0
    m_ep_stopped := false
    m_current_frame_locked := false
    m_scheduler := [] }

/-- Modelled from the spec: `m_scheduler.enqueue(task)` appends the task to the
single ordered queue consumed by the one worker thread. -/
def enqueue (s : offscreen_effect_player) (t : Task) : offscreen_effect_player :=
  { s with m_scheduler := s.m_scheduler ++ [t] }

/-- Modelled from the spec: `m_current_frame->is_locked()`, the binary lock flag
of the result holder. -/
def is_locked (s : offscreen_effect_player) : Bool :=
  s.m_current_frame_locked

/-- Modelled from the spec: `m_current_frame->lock()` sets the lock flag. -/
def lock (s : offscreen_effect_player) : offscreen_effect_player :=
  { s with m_current_frame_locked := true }

/-- Modelled from the spec: `m_current_frame->unlock()` clears the lock flag. -/
def unlock (s : offscreen_effect_player) : offscreen_effect_player :=
  { s with m_current_frame_locked := false }

/-! ## Construction -/

/-- An exception in flight.  The constructor catches `std::runtime_error&`
only, so the model separates that class (and its subclasses) from every other
exception type; `what` is the text returned by `what()`. -/
inductive Exn
  | runtime_error (what : String)
  | other (what : String)
  deriving DecidableEq, Repr

/-- The four collaborator calls of the initialisation item, in program order. -/
inductive init_call
  | ort_init
  | ort_activate_context
  | ep_surface_created
  | ort_deactivate_context
  deriving DecidableEq, Repr

/-- Position of a call inside the initialisation item. -/
def init_call.index : init_call → Nat
  | .ort_init => 0
  | .ort_activate_context => 1
  | .ep_surface_created => 2
  | .ort_deactivate_context => 3

/-- Run collaborator calls in order: a call that throws ends the run with its
exception, and the calls after it are not made. -/
def run_calls (throws : init_call → Option Exn) :
    List (init_call × Event) → List Event × Option Exn
  | [] => ([], none)
  | (c, ev) :: rest =>
    match throws c with
    | some e => ([ev], some e)
    | none => (ev :: (run_calls throws rest).1, (run_calls throws rest).2)

/-- The lambda `task` of the constructor:
`m_ort->init(width, height); m_ort->activate_context();
m_ep->surface_created(width, height); m_ort->deactivate_context();`. -/
def init_task (throws : init_call → Option Exn) (width height : Int) :
    List Event × Option Exn :=
  run_calls throws
    [ (.ort_init, .ort_init width height)
    , (.ort_activate_context, .ort_activate_context)
    , (.ep_surface_created, .ep_surface_created width height)
    , (.ort_deactivate_context, .ort_deactivate_context) ]

/-- The constructor `offscreen_effect_player::offscreen_effect_player`.  The
initialisation item is enqueued on the fresh scheduler and waited for with
`future.get()`, which rethrows what the item threw (modelled from the spec: the
scheduler is not part of the sources).  `catch (std::runtime_error& e)` prints
the error and throws a new `std::runtime_error` whose text is
`"Failed to initialize effect player.\n"` followed by `e.what()`; an exception
of any other type is not caught and leaves the constructor as it is. -/
def construct (throws : init_call → Option Exn) (width height : Int) :
    List Event × Except Exn offscreen_effect_player :=
  match (init_task throws width height).2 with
  | none => ((init_task throws width height).1, .ok offscreen_effect_player.fresh)
  | some (.runtime_error what) =>
    ((init_task throws width height).1
        ++ [Event.cout ("[ERROR] Failed to initialize effect player: " ++ what)],
      .error (.runtime_error ("Failed to initialize effect player.\n" ++ what)))
  | some (.other what) => ((init_task throws width height).1, .error (.other what))

/-! ## Caller-side member functions -/

/-- The constant `incoming_frame_queue_task_max` of `process_image_async`. -/
def incoming_frame_queue_task_max : Int := 5

/-- The task that `process_image_async` builds from its arguments: a null
callback is replaced by the empty lambda, a missing target orientation by
`rotation::deg0`. -/
def make_process_task (image : Nat) (input_rotation : rotation) (require_mirroring : Bool)
    (callback : Option Nat) (target_orientation : Option rotation) : process_task :=
  { image := image
    callback := match callback with
      | some id => .user id
      | none => .noop
    input_rotation := input_rotation
    require_mirroring := require_mirroring
    target_orientation := match target_orientation with
      | some r => r
      | none => rotation.deg0 }

/-- The member function `offscreen_effect_player::process_image_async`, on the
calling thread.  Returns the boolean result, the calls made on the calling
thread, and the new state. -/
def process_image_async (s : offscreen_effect_player) (image : Nat)
    (input_rotation : rotation) (require_mirroring : Bool) (callback : Option Nat)
    (target_orientation : Option rotation) :
    Bool × List Event × offscreen_effect_player :=
  if s.m_destroy then
    (false,
      (match callback with
        | some id => [Event.callback (.user id) .nullptr]
        | none => []),
      s)
  else if s.m_incoming_frame_queue_task_count ≥ incoming_frame_queue_task_max then
    (false, [], s)
  else
    (true, [],
      enqueue
        { s with m_incoming_frame_queue_task_count := s.m_incoming_frame_queue_task_count + 1 }
        (Task.process
          (make_process_task image input_rotation require_mirroring callback
            target_orientation)))

/-- The member function `offscreen_effect_player::surface_changed`. -/
def surface_changed (s : offscreen_effect_player) (width height : Int) :
    offscreen_effect_player :=
  enqueue s (Task.surface_changed width height)

/-- The member function `offscreen_effect_player::load_effect`. -/
def load_effect (s : offscreen_effect_player) (effect_path : String) :
    offscreen_effect_player :=
  enqueue s (Task.load_effect effect_path)

/-- The member function `offscreen_effect_player::unload_effect`. -/
def unload_effect (s : offscreen_effect_player) : offscreen_effect_player :=
  load_effect s ""

/-- The member function `offscreen_effect_player::pause`. -/
def pause (s : offscreen_effect_player) : List Event × offscreen_effect_player :=
  ([Event.ep_pause], { s with m_ep_stopped := true })

/-- The member function `offscreen_effect_player::resume`. -/
def resume (s : offscreen_effect_player) : List Event × offscreen_effect_player :=
  ([Event.ep_resume], { s with m_ep_stopped := false })

/-- The member function `offscreen_effect_player::stop`. -/
def stop (s : offscreen_effect_player) : List Event × offscreen_effect_player :=
  ([Event.ep_stop], { s with m_ep_stopped := true })

/-- The member function `offscreen_effect_player::call_js_method`. -/
def call_js_method (s : offscreen_effect_player) (method param : String) :
    offscreen_effect_player :=
  enqueue s (Task.call_js_method method param)

/-- The member function `offscreen_effect_player::eval_js`. -/
def eval_js (s : offscreen_effect_player) (script : String) (result_callback : Option Nat) :
    offscreen_effect_player :=
  enqueue s (Task.eval_js script result_callback)

/-- The destructor `~offscreen_effect_player`, up to the point where it starts
waiting: `m_destroy = true; m_scheduler.enqueue(task)`. -/
def destructor (s : offscreen_effect_player) : offscreen_effect_player :=
  enqueue { s with m_destroy := true } Task.teardown

/-! ## Worker-side tasks -/

/-- What the environment does while one worker task runs.
`draw i` is the status returned by the `i`-th call of `m_ep->draw()`;
`stopped j` is the value found by the `j`-th read of `m_ep_stopped` made after
the task has entered the active path (the value left there by the `pause`,
`resume` and `stop` calls of other threads); `fuel` bounds the number of
iterations of the draw-wait loop that are followed.
`throws e` tells whether the call `e` to a collaborator or to a user callback
throws instead of returning, and `draw_throws i` whether the `i`-th call of
`m_ep->draw()` does. -/
structure Oracle where
  draw : Nat → Int
  stopped : Nat → Bool
  fuel : Nat
  throws : Event → Option Exn
  draw_throws : Nat → Option Exn

/-- Whether a call made by a task throws.  The empty lambda that stands in for
a null callback cannot throw. -/
def Oracle.throws_at (o : Oracle) : Event → Option Exn
  | .callback .noop _ => none
  | e => o.throws e

/-- Every call made under this oracle returns. -/
def Oracle.returns (o : Oracle) : Prop :=
  (∀ e, o.throws e = none) ∧ ∀ i, o.draw_throws i = none

/-- Make the given calls in order.  A call that throws is the last one made.
Returns the calls made and whether all of them returned. -/
def attempt (throws : Event → Option Exn) : List Event → List Event × Bool
  | [] => ([], true)
  | e :: rest =>
    match throws e with
    | some _ => ([e], false)
    | none => (e :: (attempt throws rest).1, (attempt throws rest).2)

/-- The loop `while (m_ep->draw() < 0 && !m_ep_stopped) { yield; sleep_for(10ms); }`
from its `i`-th evaluation of the condition on.  Before that evaluation `i`
calls of `draw()` and `i` reads of `m_ep_stopped` have been made.  Returns the
calls made and, when the loop ends by its condition, the number of reads of
`m_ep_stopped` consumed so far (`&&` does not read the flag when `draw()` is
non-negative), or no number when a call of `draw()` throws; `none` when the
loop is still running after `fuel` evaluations. -/
def draw_wait (draw : Nat → Int) (draw_throws : Nat → Option Exn) (stopped : Nat → Bool) :
    Nat → Nat → Option (List Event × Option Nat)
  | 0, _ => none
  | fuel + 1, i =>
    match draw_throws i with
    | some _ => some ([Event.ep_draw], none)
    | none =>
      if draw i < 0 && !stopped i then
        (draw_wait draw draw_throws stopped fuel (i + 1)).map fun r =>
          (Event.ep_draw :: Event.yield :: Event.sleep_for 10 :: r.1, r.2)
      else
        some ([Event.ep_draw], some (if draw i < 0 then i + 1 else i))

/-- The text printed when a task finds the result holder locked. -/
def lock_warning : String :=
  "[Warning] The interface for processing the previous frame is lock"

/-- The statement `--m_incoming_frame_queue_task_count` that ends the lambda of
`process_image_async`. -/
def decrement (s : offscreen_effect_player) : offscreen_effect_player :=
  { s with m_incoming_frame_queue_task_count := s.m_incoming_frame_queue_task_count - 1 }

/-- The lambda `task` of `process_image_async`, run on the worker thread.
The lambda has no handler: when a call to the render target, to the effect
player or to the user callback throws, the statements after that call are not
executed, neither `m_current_frame->unlock()` nor the decrement of the counter.
The exception ends in the future returned by `enqueue`, which nobody keeps, so
the outcome is the calls made and the state left behind.
After the task `m_ep_stopped` holds the value of its last read. -/
def run_process (s : offscreen_effect_player) (t : process_task) (o : Oracle) :
    Option (List Event × offscreen_effect_player) :=
  if is_locked s then
    some ([Event.cout lock_warning], decrement s)
  else if s.m_incoming_frame_queue_task_count == 1 && !s.m_ep_stopped then
    if (attempt o.throws_at
        [ Event.ort_activate_context, Event.ort_prepare_rendering
        , Event.ep_push_frame t.image t.input_rotation t.require_mirroring ]).2 then
      match draw_wait o.draw o.draw_throws o.stopped o.fuel 0 with
      | none => none
      | some (draws, none) =>
        some
          ([ Event.current_frame_lock, Event.ort_activate_context, Event.ort_prepare_rendering
           , Event.ep_push_frame t.image t.input_rotation t.require_mirroring ]
            ++ draws,
            lock s)
      | some (draws, some reads) =>
        if (attempt o.throws_at
            (if !o.stopped reads then
              [ Event.ort_orient_image t.target_orientation
              , Event.callback t.callback .m_current_frame ]
            else
              [Event.callback t.callback .nullptr])).2 then
          some
            ([ Event.current_frame_lock, Event.ort_activate_context, Event.ort_prepare_rendering
             , Event.ep_push_frame t.image t.input_rotation t.require_mirroring ]
              ++ draws
              ++ (if !o.stopped reads then
                    [ Event.ort_orient_image t.target_orientation
                    , Event.callback t.callback .m_current_frame ]
                  else
                    [Event.callback t.callback .nullptr])
              ++ [Event.current_frame_unlock],
              decrement (unlock { lock s with m_ep_stopped := o.stopped reads }))
        else
          some
            ([ Event.current_frame_lock, Event.ort_activate_context, Event.ort_prepare_rendering
             , Event.ep_push_frame t.image t.input_rotation t.require_mirroring ]
              ++ draws
              ++ (attempt o.throws_at
                  (if !o.stopped reads then
                    [ Event.ort_orient_image t.target_orientation
                    , Event.callback t.callback .m_current_frame ]
                  else
                    [Event.callback t.callback .nullptr])).1,
              { lock s with m_ep_stopped := o.stopped reads })
    else
      some
        (Event.current_frame_lock
          :: (attempt o.throws_at
              [ Event.ort_activate_context, Event.ort_prepare_rendering
              , Event.ep_push_frame t.image t.input_rotation t.require_mirroring ]).1,
          lock s)
  else if (attempt o.throws_at [Event.callback t.callback .nullptr]).2 then
    some ([Event.callback t.callback .nullptr], decrement s)
  else
    some ([Event.callback t.callback .nullptr], s)

/-- Run one task of the queue on the worker thread.  The lambdas of the control
commands have no handler either: a call that throws is their last; they do not
change the members of the player. -/
def run_task (s : offscreen_effect_player) (t : Task) (o : Oracle) :
    Option (List Event × offscreen_effect_player) :=
  match t with
  | .process p => run_process s p o
  | .surface_changed width height =>
    some
      ((attempt o.throws_at
        [ Event.ort_activate_context, Event.ep_surface_changed width height
        , Event.ort_surface_changed width height, Event.ort_deactivate_context ]).1, s)
  | .load_effect effect =>
    some
      ((attempt o.throws_at
        [Event.ort_activate_context, Event.ep_load_effect effect, Event.ort_deactivate_context]).1,
        s)
  | .call_js_method method param =>
    some
      ((attempt o.throws_at
        [ Event.ort_activate_context, Event.ep_call_js_method method param
        , Event.ort_deactivate_context ]).1, s)
  | .eval_js script callback =>
    some
      ((attempt o.throws_at
        [ Event.ort_activate_context, Event.ep_eval_js script callback
        , Event.ort_deactivate_context ]).1, s)
  | .teardown =>
    some
      ((attempt o.throws_at
        [Event.ort_activate_context, Event.ep_surface_destroyed, Event.ort_deinit]).1, s)

/-- Modelled from the spec: the worker thread of `m_scheduler` takes the oldest
pending task off the queue and runs it to completion.  `none` when the queue is
empty or the task is still in its draw-wait loop when the fuel is spent. -/
def worker_step (s : offscreen_effect_player) (o : Oracle) :
    Option (List Event × offscreen_effect_player) :=
  match s.m_scheduler with
  | [] => none
  | t :: rest => run_task { s with m_scheduler := rest } t o

/-- The worker runs one pending task per oracle, oldest first; the result
lists the calls of each task separately. -/
def worker_run (s : offscreen_effect_player) :
    List Oracle → Option (List (List Event) × offscreen_effect_player)
  | [] => some ([], s)
  | o :: os =>
    match worker_step s o with
    | none => none
    | some (evs, s1) =>
      match worker_run s1 os with
      | none => none
      | some (traces, s2) => some (evs :: traces, s2)

/-! ## The player as a state machine -/

/-- One atomic step of the system: a call of a public member function from any
thread, the worker running the oldest pending task, or the holder of a
delivered frame locking or unlocking it. -/
inductive Action
  | process_image_async (image : Nat) (input_rotation : rotation) (require_mirroring : Bool)
      (callback : Option Nat) (target_orientation : Option rotation)
  | surface_changed (width height : Int)
  | load_effect (effect_path : String)
  | unload_effect
  | pause
  | resume
  | stop
  | call_js_method (method param : String)
  | eval_js (script : String) (result_callback : Option Nat)
  | destructor
  | worker (o : Oracle)
  | consumer_lock
  | consumer_unlock

/-- Effect of one action: the calls it makes and the next state. -/
def step (s : offscreen_effect_player) : Action → Option (List Event × offscreen_effect_player)
  | .process_image_async image input_rotation require_mirroring callback target_orientation =>
    some (process_image_async s image input_rotation require_mirroring callback
      target_orientation).2
  | .surface_changed width height => some ([], surface_changed s width height)
  | .load_effect effect_path => some ([], load_effect s effect_path)
  | .unload_effect => some ([], unload_effect s)
  | .pause => some (pause s)
  | .resume => some (resume s)
  | .stop => some (stop s)
  | .call_js_method method param => some ([], call_js_method s method param)
  | .eval_js script result_callback => some ([], eval_js s script result_callback)
  | .destructor => some ([], destructor s)
  | .worker o => worker_step s o
  | .consumer_lock => some ([Event.current_frame_lock], lock s)
  | .consumer_unlock => some ([Event.current_frame_unlock], unlock s)

/-- Run a sequence of actions, collecting all calls. -/
def run (s : offscreen_effect_player) : List Action → Option (List Event × offscreen_effect_player)
  | [] => some ([], s)
  | a :: rest =>
    match step s a with
    | none => none
    | some (evs, s1) =>
      match run s1 rest with
      | none => none
      | some (evs2, s2) => some (evs ++ evs2, s2)

/-- A state the player can be in after construction. -/
def Reachable (s : offscreen_effect_player) : Prop :=
  ∃ acts evs, run offscreen_effect_player.fresh acts = some (evs, s)

/-- An oracle under which every draw is ready at once and nobody stops the
player. -/
def ready_oracle : Oracle :=
  { draw := fun _ => 0, stopped := fun _ => false, fuel := 1
    throws := fun _ => none, draw_throws := fun _ => none }

/-! ## Auxiliary definitions used by the statements -/

/-- Whether a queued task is an image-processing task. -/
def Task.is_process : Task → Bool
  | .process _ => true
  | _ => false

/-- Number of image-processing tasks waiting in a queue. -/
def pending_process (queue : List Task) : Nat :=
  (queue.filter Task.is_process).length

/-- The calls of a draw-wait loop whose first `k` evaluations of the condition
continue and whose next one ends it: `k` times draw, yield, sleep, then one
last draw. -/
def draw_wait_calls : Nat → List Event
  | 0 => [Event.ep_draw]
  | k + 1 => Event.ep_draw :: Event.yield :: Event.sleep_for 10 :: draw_wait_calls k

/-- The calls with which the active path of a worker task starts, up to and
including `push_frame`. -/
def active_head (t : process_task) : List Event :=
  [ Event.current_frame_lock, Event.ort_activate_context, Event.ort_prepare_rendering
  , Event.ep_push_frame t.image t.input_rotation t.require_mirroring ]

/-- Replay the `lock()`/`unlock()` calls of a trace on the lock flag of the
result holder.  `none` when the holder is locked while it is locked already or
unlocked while it is not locked; otherwise the final value of the flag. -/
def lock_replay : Bool → List Event → Option Bool
  | b, [] => some b
  | b, Event.current_frame_lock :: rest => if b then none else lock_replay true rest
  | b, Event.current_frame_unlock :: rest => if b then lock_replay false rest else none
  | b, _ :: rest => lock_replay b rest

/-- Number of times the callback `cb` is invoked in a trace. -/
def callback_count (cb : task_callback) (evs : List Event) : Nat :=
  (evs.filter fun e => e == Event.callback cb .nullptr || e == Event.callback cb .m_current_frame).length

/-- Five requests with callbacks 1 to 5, submitted back to back. -/
def five_requests : List Action :=
  [ .process_image_async 1 .deg0 false (some 1) none
  , .process_image_async 2 .deg0 false (some 2) none
  , .process_image_async 3 .deg0 false (some 3) none
  , .process_image_async 4 .deg0 false (some 4) none
  , .process_image_async 5 .deg0 false (some 5) none ]

/-- A first request is processed and its frame delivered, the receiver locks
the delivered frame, and a second request is submitted. -/
def held_frame_actions : List Action :=
  [ .process_image_async 1 .deg0 false (some 1) none
  , .worker ready_oracle
  , .consumer_lock
  , .process_image_async 2 .deg0 false (some 2) none ]

/-- The invariant of the state machine: the counter is at least the number of
image-processing tasks in the queue, and is at most 5. -/
def Inv (s : offscreen_effect_player) : Prop :=
  (pending_process s.m_scheduler : Int) ≤ s.m_incoming_frame_queue_task_count
    ∧ s.m_incoming_frame_queue_task_count ≤ 5

/-- An action in which every call made by the worker returns. -/
def Action.returns : Action → Prop
  | .worker o => o.returns
  | _ => True

/-- An oracle under which the second call of `m_ep->draw()` throws, after a
first call that was not ready. -/
def second_draw_throws : Oracle :=
  { draw := fun _ => -1, stopped := fun _ => false, fuel := 2
    throws := fun _ => none
    draw_throws := fun i => if i = 1 then some (.runtime_error "draw failed") else none }

/-- The state after five accepted requests of which the worker has run the
first: requests 2 to 5 are still pending. -/
def four_pending : offscreen_effect_player :=
  { m_destroy := false
    m_incoming_frame_queue_task_count := 4
    m_ep_stopped := false
    m_current_frame_locked := false
    m_scheduler :=
      [ Task.process (make_process_task 2 .deg0 false (some 2) none)
      , Task.process (make_process_task 3 .deg0 false (some 3) none)
      , Task.process (make_process_task 4 .deg0 false (some 4) none)
      , Task.process (make_process_task 5 .deg0 false (some 5) none) ] }

/-- A state in which one accepted request is in flight, the holder is unlocked
and the player is running. -/
def one_pending : offscreen_effect_player :=
  { m_destroy := false
    m_incoming_frame_queue_task_count := 1
    m_ep_stopped := false
    m_current_frame_locked := false
    m_scheduler := [] }

/-- An initialisation in which `m_ort->init` throws `std::bad_alloc`, which is
not a `std::runtime_error`. -/
def init_throws_bad_alloc : init_call → Option Exn
  | .ort_init => some (.other "std::bad_alloc")
  | _ => none

/-- An initialisation in which `m_ep->surface_created` throws a
`std::runtime_error`. -/
def surface_created_throws : init_call → Option Exn
  | .ep_surface_created => some (.runtime_error "no GL context")
  | _ => none

/-! ## Rejection on the calling thread -/

/-- C4: when the destruction flag is set, `process_image_async` with a non-null
callback returns false, invokes that callback exactly once, with `nullptr`, and
leaves the whole state as it was: nothing is enqueued and the in-flight counter
is unchanged, whatever the counter, the run-state and the holder lock are. -/
theorem process_image_async_after_destroy (s : offscreen_effect_player) (image : Nat)
    (input_rotation : rotation) (require_mirroring : Bool) (id : Nat)
    (target_orientation : Option rotation) (h : s.m_destroy = true) :
    process_image_async s image input_rotation require_mirroring (some id) target_orientation
        = (false, [Event.callback (.user id) .nullptr], s)
      ∧ callback_count (.user id)
          (process_image_async s image input_rotation require_mirroring (some id)
            target_orientation).2.1 = 1 := by
  have e : process_image_async s image input_rotation require_mirroring (some id)
      target_orientation = (false, [Event.callback (.user id) .nullptr], s) := by
    simp [process_image_async, h]
  refine ⟨e, ?_⟩
  rw [e]
  simp [callback_count]

/-- Witness of C4: a request made on a player whose destructor has started. -/
theorem process_image_async_after_destroy_witness :
    (destructor offscreen_effect_player.fresh).m_destroy = true
      ∧ process_image_async (destructor offscreen_effect_player.fresh) 1 .deg90 true (some 7)
          (some .deg180)
        = (false, [Event.callback (.user 7) .nullptr], destructor offscreen_effect_player.fresh) :=
  ⟨rfl, (process_image_async_after_destroy _ 1 .deg90 true 7 (some .deg180) rfl).1⟩

/-- C1: after five accepted requests and no worker progress the counter is 5
and the destruction flag is unset; a sixth request with callback 6 returns
false and changes nothing, but it makes no call at all: callback 6 is not
invoked. -/
theorem process_image_async_overload_skips_callback :
    ∃ evs s, run offscreen_effect_player.fresh five_requests = some (evs, s)
      ∧ s.m_destroy = false
      ∧ s.m_incoming_frame_queue_task_count = 5
      ∧ process_image_async s 6 .deg0 false (some 6) none = (false, [], s)
      ∧ callback_count (.user 6) (process_image_async s 6 .deg0 false (some 6) none).2.1 = 0 :=
  ⟨_, _, rfl, rfl, rfl, rfl, rfl⟩

/-- C3, as stated, fails: with the destruction flag set, `surface_changed`
still puts a task on the scheduler. -/
theorem surface_changed_after_destroy_enqueues :
    (destructor offscreen_effect_player.fresh).m_destroy = true
      ∧ (surface_changed (destructor offscreen_effect_player.fresh) 640 480).m_scheduler
        = [Task.teardown, Task.surface_changed 640 480]
      ∧ (surface_changed (destructor offscreen_effect_player.fresh) 640 480).m_scheduler
        ≠ (destructor offscreen_effect_player.fresh).m_scheduler := by
  decide

/-- C3, amended: once the destruction flag is set, `process_image_async` returns
false and enqueues nothing; `surface_changed`, `load_effect`, `unload_effect`,
`call_js_method` and `eval_js` do not look at the flag and each appends exactly
one task to the queue of the scheduler. -/
theorem submissions_after_destroy (s : offscreen_effect_player) (h : s.m_destroy = true) :
    (∀ image input_rotation require_mirroring callback target_orientation,
        (process_image_async s image input_rotation require_mirroring callback
          target_orientation).1 = false
        ∧ (process_image_async s image input_rotation require_mirroring callback
          target_orientation).2.2 = s)
      ∧ (∀ width height,
        (surface_changed s width height).m_scheduler
          = s.m_scheduler ++ [Task.surface_changed width height])
      ∧ (∀ effect_path,
        (load_effect s effect_path).m_scheduler = s.m_scheduler ++ [Task.load_effect effect_path])
      ∧ (unload_effect s).m_scheduler = s.m_scheduler ++ [Task.load_effect ""]
      ∧ (∀ method param,
        (call_js_method s method param).m_scheduler
          = s.m_scheduler ++ [Task.call_js_method method param])
      ∧ (∀ script result_callback,
        (eval_js s script result_callback).m_scheduler
          = s.m_scheduler ++ [Task.eval_js script result_callback]) := by
  refine ⟨?_, ?_, ?_, ?_, ?_, ?_⟩
  · intro image input_rotation require_mirroring callback target_orientation
    simp [process_image_async, h]
  · intro width height
    rfl
  · intro effect_path
    rfl
  · rfl
  · intro method param
    rfl
  · intro script result_callback
    rfl

/-- Witness of the amended C3 on a player whose destructor has started. -/
theorem submissions_after_destroy_witness :
    (destructor offscreen_effect_player.fresh).m_destroy = true
      ∧ (process_image_async (destructor offscreen_effect_player.fresh) 1 .deg0 false (some 1)
          none).2.2 = destructor offscreen_effect_player.fresh
      ∧ (unload_effect (destructor offscreen_effect_player.fresh)).m_scheduler
        = [Task.teardown, Task.load_effect ""] :=
  ⟨rfl,
    ((submissions_after_destroy (destructor offscreen_effect_player.fresh) rfl).1 1 .deg0 false
      (some 1) none).2,
    (submissions_after_destroy (destructor offscreen_effect_player.fresh) rfl).2.2.2.1⟩

/-! ## Construction -/

/-- C9, as stated, fails: when `m_ort->init` throws an exception that is not a
`std::runtime_error`, construction fails with that very exception; its message
is not prefixed by the initialisation text. -/
theorem construct_other_exception_unwrapped :
    construct init_throws_bad_alloc 640 480
        = ([Event.ort_init 640 480], .error (.other "std::bad_alloc"))
      ∧ (construct init_throws_bad_alloc 640 480).2
        ≠ .error (.runtime_error ("Failed to initialize effect player.\n" ++ "std::bad_alloc")) := by
  refine ⟨rfl, ?_⟩
  intro h
  cases h

/-- C9, amended: construction makes the calls `init(width, height)`,
`activate_context`, `surface_created(width, height)`, `deactivate_context` in
that order and succeeds when none throws; when the first call that throws
throws a `std::runtime_error`, construction fails with a `std::runtime_error`
whose text is the initialisation text followed by the text of the cause; when
it throws something else, construction fails with that exception unchanged. -/
theorem construct_wraps_runtime_error (throws : init_call → Option Exn) (width height : Int) :
    ((∀ c, throws c = none) →
        construct throws width height
          = ([ Event.ort_init width height, Event.ort_activate_context
             , Event.ep_surface_created width height, Event.ort_deactivate_context ],
              .ok offscreen_effect_player.fresh))
      ∧ (∀ c what, throws c = some (.runtime_error what) →
          (∀ c', init_call.index c' < init_call.index c → throws c' = none) →
          (construct throws width height).2
            = .error (.runtime_error ("Failed to initialize effect player.\n" ++ what)))
      ∧ (∀ c what, throws c = some (.other what) →
          (∀ c', init_call.index c' < init_call.index c → throws c' = none) →
          (construct throws width height).2 = .error (.other what)) := by
  refine ⟨?_, ?_, ?_⟩
  · intro h
    simp [construct, init_task, run_calls, h]
  · intro c what hc hbefore
    cases c
    · simp [construct, init_task, run_calls, hc]
    · have h0 := hbefore .ort_init (by decide)
      simp [construct, init_task, run_calls, hc, h0]
    · have h0 := hbefore .ort_init (by decide)
      have h1 := hbefore .ort_activate_context (by decide)
      simp [construct, init_task, run_calls, hc, h0, h1]
    · have h0 := hbefore .ort_init (by decide)
      have h1 := hbefore .ort_activate_context (by decide)
      have h2 := hbefore .ep_surface_created (by decide)
      simp [construct, init_task, run_calls, hc, h0, h1, h2]
  · intro c what hc hbefore
    cases c
    · simp [construct, init_task, run_calls, hc]
    · have h0 := hbefore .ort_init (by decide)
      simp [construct, init_task, run_calls, hc, h0]
    · have h0 := hbefore .ort_init (by decide)
      have h1 := hbefore .ort_activate_context (by decide)
      simp [construct, init_task, run_calls, hc, h0, h1]
    · have h0 := hbefore .ort_init (by decide)
      have h1 := hbefore .ort_activate_context (by decide)
      have h2 := hbefore .ep_surface_created (by decide)
      simp [construct, init_task, run_calls, hc, h0, h1, h2]

/-- Witness of the amended C9: a construction in which nothing throws, one in
which `surface_created` throws a `std::runtime_error`, and one in which `init`
throws another exception. -/
theorem construct_wraps_runtime_error_witness :
    construct (fun _ => none) 640 480
        = ([ Event.ort_init 640 480, Event.ort_activate_context
           , Event.ep_surface_created 640 480, Event.ort_deactivate_context ],
            .ok offscreen_effect_player.fresh)
      ∧ (construct surface_created_throws 640 480).2
        = .error (.runtime_error ("Failed to initialize effect player.\n" ++ "no GL context"))
      ∧ (construct init_throws_bad_alloc 640 480).2 = .error (.other "std::bad_alloc") :=
  ⟨(construct_wraps_runtime_error (fun _ => none) 640 480).1 (fun _ => rfl),
    (construct_wraps_runtime_error surface_created_throws 640 480).2.1 .ep_surface_created
      "no GL context" rfl (by intro c hc; cases c <;> first | rfl | exact absurd hc (by decide)),
    (construct_wraps_runtime_error init_throws_bad_alloc 640 480).2.2 .ort_init
      "std::bad_alloc" rfl (by intro c hc; cases c <;> exact absurd hc (by decide))⟩

/-! ## The draw-wait loop -/

/-- The loop comes to an end as soon as some evaluation within the fuel finds
`draw()` non-negative or `m_ep_stopped` set (or earlier, by an exception). -/
theorem draw_wait_isSome (draw : Nat → Int) (draw_throws : Nat → Option Exn)
    (stopped : Nat → Bool) :
    ∀ (fuel i : Nat),
      (∃ k, k < fuel ∧ (0 ≤ draw (i + k) ∨ stopped (i + k) = true)) →
      (draw_wait draw draw_throws stopped fuel i).isSome = true := by
  intro fuel
  induction fuel with
  | zero =>
    intro i h
    obtain ⟨k, hk, _⟩ := h
    omega
  | succ f ih =>
    intro i h
    obtain ⟨k, hk, hhit⟩ := h
    cases ht : draw_throws i with
    | some e => simp [draw_wait, ht]
    | none =>
      by_cases hcond : (decide (draw i < 0) && !stopped i) = true
      · have hk0 : k ≠ 0 := by
          rintro rfl
          simp only [Bool.and_eq_true, decide_eq_true_eq, Bool.not_eq_true'] at hcond
          rcases hhit with h | h
          · have := hcond.1
            simp at h
            omega
          · simp [hcond.2] at h
        have hrec := ih (i + 1) ⟨k - 1, by omega, by
          have e : i + 1 + (k - 1) = i + k := by omega
          rw [e]
          exact hhit⟩
        simp only [draw_wait, ht, hcond, if_true]
        cases hd : draw_wait draw draw_throws stopped f (i + 1) with
        | none => simp [hd] at hrec
        | some r => simp
      · simp [draw_wait, ht, hcond]

/-- Every trace the loop can produce consists of draws, yields and sleeps. -/
theorem draw_wait_calls_shape (draw : Nat → Int) (draw_throws : Nat → Option Exn)
    (stopped : Nat → Bool) :
    ∀ (fuel i : Nat) (evs : List Event) (reads : Option Nat),
      draw_wait draw draw_throws stopped fuel i = some (evs, reads) →
      ∃ k, evs = draw_wait_calls k := by
  intro fuel
  induction fuel with
  | zero =>
    intro i evs reads h
    simp [draw_wait] at h
  | succ f ih =>
    intro i evs reads h
    cases ht : draw_throws i with
    | some e =>
      simp only [draw_wait, ht, Option.some.injEq, Prod.mk.injEq] at h
      exact ⟨0, by rw [← h.1]; rfl⟩
    | none =>
      by_cases hcond : (decide (draw i < 0) && !stopped i) = true
      · simp only [draw_wait, ht, hcond, if_true] at h
        cases hd : draw_wait draw draw_throws stopped f (i + 1) with
        | none => simp [hd] at h
        | some r =>
          obtain ⟨k, hk⟩ := ih (i + 1) r.1 r.2 hd
          simp only [hd, Option.map_some', Option.some.injEq, Prod.mk.injEq] at h
          exact ⟨k + 1, by rw [← h.1, hk]; rfl⟩
      · simp only [draw_wait, ht, hcond] at h
        simp only [Bool.false_eq_true, if_false, Option.some.injEq, Prod.mk.injEq] at h
        exact ⟨0, by rw [← h.1]; rfl⟩

/-- The calls of the loop are draws, yields and sleeps. -/
theorem mem_draw_wait_calls (e : Event) :
    ∀ k, e ∈ draw_wait_calls k → e = Event.ep_draw ∨ e = Event.yield ∨ e = Event.sleep_for 10 := by
  intro k
  induction k with
  | zero =>
    intro h
    simp only [draw_wait_calls, List.mem_singleton] at h
    exact Or.inl h
  | succ k ih =>
    intro h
    simp only [draw_wait_calls, List.mem_cons] at h
    rcases h with h | h | h | h
    · exact Or.inl h
    · exact Or.inr (Or.inl h)
    · exact Or.inr (Or.inr h)
    · exact ih h

/-! ## Calls that may throw -/

/-- When none of the calls throws, all of them are made. -/
theorem attempt_returns (throws : Event → Option Exn) :
    ∀ calls : List Event, (∀ e, e ∈ calls → throws e = none) →
      attempt throws calls = (calls, true) := by
  intro calls
  induction calls with
  | nil => intro _; rfl
  | cons e rest ih =>
    intro h
    have he := h e (List.mem_cons_self _ _)
    have hrest := ih fun e1 h1 => h e1 (List.mem_cons_of_mem _ h1)
    simp [attempt, he, hrest]

/-- The calls made are among the calls to make. -/
theorem mem_attempt (throws : Event → Option Exn) (e : Event) :
    ∀ calls : List Event, e ∈ (attempt throws calls).1 → e ∈ calls := by
  intro calls
  induction calls with
  | nil => intro h; simp [attempt] at h
  | cons c rest ih =>
    intro h
    cases hc : throws c with
    | some x =>
      simp only [attempt, hc, List.mem_singleton] at h
      rw [h]
      exact List.mem_cons_self _ _
    | none =>
      simp only [attempt, hc, List.mem_cons] at h
      rcases h with h | h
      · rw [h]; exact List.mem_cons_self _ _
      · exact List.mem_cons_of_mem _ (ih h)

/-- Under an oracle whose calls all return, no call of a task throws. -/
theorem throws_at_of_returns (o : Oracle) (h : o.returns) (e : Event) :
    o.throws_at e = none := by
  unfold Oracle.throws_at
  split
  · rfl
  · exact h.1 e

/-- Under an oracle whose calls all return, all calls to make are made. -/
theorem attempt_of_returns (o : Oracle) (h : o.returns) (calls : List Event) :
    attempt o.throws_at calls = (calls, true) :=
  attempt_returns o.throws_at calls fun e _ => throws_at_of_returns o h e

/-- Replaying a trace without `lock()` and `unlock()` calls leaves the flag as
it is. -/
theorem lock_replay_untouched : ∀ (l : List Event), Event.current_frame_lock ∉ l →
    Event.current_frame_unlock ∉ l → ∀ b, lock_replay b l = some b := by
  intro l
  induction l with
  | nil => intro _ _ b; rfl
  | cons e l ih =>
    intro h1 h2 b
    simp only [List.mem_cons, not_or] at h1 h2
    have := ih h1.2 h2.2 b
    cases e <;>
      first
        | exact absurd rfl h1.1
        | exact absurd rfl h2.1
        | simpa [lock_replay] using this

/-- Replaying a trace made of two parts replays the first, then the second. -/
theorem lock_replay_append (ys : List Event) :
    ∀ (xs : List Event) (b : Bool),
      lock_replay b (xs ++ ys) = (lock_replay b xs).bind fun b1 => lock_replay b1 ys := by
  intro xs
  induction xs with
  | nil => intro b; simp [lock_replay]
  | cons e xs ih =>
    intro b
    cases e <;> cases b <;> simp [lock_replay, ih]

/-! ## The paths of a worker task -/

/-- Locked-skip path: the holder is locked, the task prints the warning and
decrements the counter. -/
theorem run_process_locked (s : offscreen_effect_player) (t : process_task) (o : Oracle)
    (h : s.m_current_frame_locked = true) :
    run_process s t o
      = some ([Event.cout lock_warning],
          { s with m_incoming_frame_queue_task_count := s.m_incoming_frame_queue_task_count - 1 }) := by
  simp [run_process, is_locked, h, decrement]

/-- The test that sends a task with an unlocked holder to the superseded
path. -/
theorem superseded_test (s : offscreen_effect_player)
    (h2 : ¬ (s.m_incoming_frame_queue_task_count = 1 ∧ s.m_ep_stopped = false)) :
    (s.m_incoming_frame_queue_task_count == 1 && !s.m_ep_stopped) = false := by
  by_cases h1 : s.m_incoming_frame_queue_task_count = 1
  · have : s.m_ep_stopped = true := by
      cases hs : s.m_ep_stopped with
      | true => rfl
      | false => exact absurd ⟨h1, hs⟩ h2
    simp [this]
  · simp [h1]

/-- Superseded path, callback returning: the holder is unlocked but the task is
not the only one in flight, or the player is stopped. -/
theorem run_process_superseded (s : offscreen_effect_player) (t : process_task) (o : Oracle)
    (h : s.m_current_frame_locked = false)
    (h2 : ¬ (s.m_incoming_frame_queue_task_count = 1 ∧ s.m_ep_stopped = false))
    (hcb : o.throws_at (Event.callback t.callback .nullptr) = none) :
    run_process s t o
      = some ([Event.callback t.callback .nullptr],
          { s with m_incoming_frame_queue_task_count := s.m_incoming_frame_queue_task_count - 1 }) := by
  simp [run_process, is_locked, h, superseded_test s h2, attempt, hcb, decrement]

/-- Superseded path, callback throwing: the counter is not decremented. -/
theorem run_process_superseded_throw (s : offscreen_effect_player) (t : process_task)
    (o : Oracle) (x : Exn)
    (h : s.m_current_frame_locked = false)
    (h2 : ¬ (s.m_incoming_frame_queue_task_count = 1 ∧ s.m_ep_stopped = false))
    (hcb : o.throws_at (Event.callback t.callback .nullptr) = some x) :
    run_process s t o = some ([Event.callback t.callback .nullptr], s) := by
  simp [run_process, is_locked, h, superseded_test s h2, attempt, hcb]

/-- Active path, every call returning and the loop finished: the calls are
lock, activate, prepare, push, the calls of the loop, then either orient and
the callback with the holder or the callback with `nullptr`, then unlock. -/
theorem run_process_active (s : offscreen_effect_player) (t : process_task) (o : Oracle)
    (draws : List Event) (reads : Nat) (hret : o.returns)
    (h : s.m_current_frame_locked = false) (h1 : s.m_incoming_frame_queue_task_count = 1)
    (h2 : s.m_ep_stopped = false)
    (hd : draw_wait o.draw o.draw_throws o.stopped o.fuel 0 = some (draws, some reads)) :
    run_process s t o
      = some (active_head t ++ draws
            ++ (if o.stopped reads then
                  [Event.callback t.callback .nullptr, Event.current_frame_unlock]
                else
                  [ Event.ort_orient_image t.target_orientation
                  , Event.callback t.callback .m_current_frame
                  , Event.current_frame_unlock ]),
          { s with
            m_current_frame_locked := false
            m_ep_stopped := o.stopped reads
            m_incoming_frame_queue_task_count := 0 }) := by
  have ha := attempt_of_returns o hret
  cases hs : o.stopped reads <;>
    simp [run_process, is_locked, h, h1, h2, ha, hd, hs, active_head, lock, unlock, decrement]

/-- Active path, loop still running when the fuel is spent. -/
theorem run_process_active_none (s : offscreen_effect_player) (t : process_task) (o : Oracle)
    (hret : o.returns)
    (h : s.m_current_frame_locked = false) (h1 : s.m_incoming_frame_queue_task_count = 1)
    (h2 : s.m_ep_stopped = false)
    (hd : draw_wait o.draw o.draw_throws o.stopped o.fuel 0 = none) :
    run_process s t o = none := by
  have ha := attempt_of_returns o hret
  simp [run_process, is_locked, h, h1, h2, ha, hd]

/-- The calls made by `attempt` contain no `lock()` when the calls to make
contain none. -/
theorem lock_not_mem_attempt (throws : Event → Option Exn) (calls : List Event)
    (h : Event.current_frame_lock ∉ calls) :
    Event.current_frame_lock ∉ (attempt throws calls).1 :=
  fun hm => h (mem_attempt throws _ calls hm)

/-- The calls made by `attempt` contain no `unlock()` when the calls to make
contain none. -/
theorem unlock_not_mem_attempt (throws : Event → Option Exn) (calls : List Event)
    (h : Event.current_frame_unlock ∉ calls) :
    Event.current_frame_unlock ∉ (attempt throws calls).1 :=
  fun hm => h (mem_attempt throws _ calls hm)

/-- Between `lock()` and the end of the active path the task calls neither
`lock()` nor `unlock()` before its last calls `L`. -/
theorem not_mem_active_mid (t : process_task) (k : Nat) (L : List Event) (x : Event)
    (hx : x = Event.current_frame_lock ∨ x = Event.current_frame_unlock) (hL : x ∉ L) :
    x ∉ [ Event.ort_activate_context, Event.ort_prepare_rendering
        , Event.ep_push_frame t.image t.input_rotation t.require_mirroring ]
        ++ draw_wait_calls k ++ L := by
  intro hm
  rcases List.mem_append.mp hm with hm | hm
  · rcases List.mem_append.mp hm with hm | hm
    · rcases hx with rfl | rfl <;> simp at hm
    · rcases mem_draw_wait_calls _ k hm with h | h | h <;> rcases hx with rfl | rfl <;> cases h
  · exact hL hm

/-- Every way in which a worker task can end, by return or by exception.  The
queue and the destruction flag are never touched.  With the holder locked the
task prints the warning and decrements.  On the superseded path it invokes the
callback with `nullptr` and decrements unless the callback throws.  On the
active path it locks first; then either it makes further calls, none of them
`lock()` or `unlock()`, unlocks and decrements, or it is left by an exception
after such calls, with the holder locked and the counter not decremented. -/
theorem run_process_outcome (s s' : offscreen_effect_player) (t : process_task) (o : Oracle)
    (evs : List Event) (h : run_process s t o = some (evs, s')) :
    s'.m_scheduler = s.m_scheduler ∧ s'.m_destroy = s.m_destroy
      ∧ ((s.m_current_frame_locked = true ∧ evs = [Event.cout lock_warning]
            ∧ s'.m_current_frame_locked = true
            ∧ s'.m_incoming_frame_queue_task_count = s.m_incoming_frame_queue_task_count - 1)
        ∨ (s.m_current_frame_locked = false
            ∧ ¬ (s.m_incoming_frame_queue_task_count = 1 ∧ s.m_ep_stopped = false)
            ∧ evs = [Event.callback t.callback .nullptr]
            ∧ s'.m_current_frame_locked = false
            ∧ (s'.m_incoming_frame_queue_task_count = s.m_incoming_frame_queue_task_count - 1
              ∨ s'.m_incoming_frame_queue_task_count = s.m_incoming_frame_queue_task_count))
        ∨ (s.m_current_frame_locked = false
            ∧ (s.m_incoming_frame_queue_task_count = 1 ∧ s.m_ep_stopped = false)
            ∧ ∃ mid, Event.current_frame_lock ∉ mid ∧ Event.current_frame_unlock ∉ mid
              ∧ ((evs = Event.current_frame_lock :: mid
                    ∧ s'.m_current_frame_locked = true
                    ∧ s'.m_incoming_frame_queue_task_count
                      = s.m_incoming_frame_queue_task_count)
                ∨ (evs = Event.current_frame_lock :: (mid ++ [Event.current_frame_unlock])
                    ∧ s'.m_current_frame_locked = false
                    ∧ s'.m_incoming_frame_queue_task_count
                      = s.m_incoming_frame_queue_task_count - 1)))) := by
  cases hl : s.m_current_frame_locked with
  | true =>
    rw [run_process_locked s t o hl] at h
    simp only [Option.some.injEq, Prod.mk.injEq] at h
    obtain ⟨h1, h2⟩ := h
    subst h1 h2
    exact ⟨rfl, rfl, Or.inl ⟨rfl, rfl, hl, rfl⟩⟩
  | false =>
    by_cases hc : s.m_incoming_frame_queue_task_count = 1 ∧ s.m_ep_stopped = false
    · have htest : (s.m_incoming_frame_queue_task_count == 1 && !s.m_ep_stopped) = true := by
        simp [hc.1, hc.2]
      simp only [run_process, is_locked, hl, htest, Bool.false_eq_true, if_false, if_true] at h
      have hhl : Event.current_frame_lock ∉
          [ Event.ort_activate_context, Event.ort_prepare_rendering
          , Event.ep_push_frame t.image t.input_rotation t.require_mirroring ] := by simp
      have hhu : Event.current_frame_unlock ∉
          [ Event.ort_activate_context, Event.ort_prepare_rendering
          , Event.ep_push_frame t.image t.input_rotation t.require_mirroring ] := by simp
      split at h
      · split at h
        · cases h
        · rename_i draws hd
          obtain ⟨k, hk⟩ := draw_wait_calls_shape _ _ _ _ _ _ _ hd
          simp only [Option.some.injEq, Prod.mk.injEq] at h
          obtain ⟨h1, h2⟩ := h
          subst h1 h2 hk
          refine ⟨rfl, rfl, Or.inr (Or.inr ⟨rfl, hc, ?_⟩)⟩
          refine ⟨[ Event.ort_activate_context, Event.ort_prepare_rendering
            , Event.ep_push_frame t.image t.input_rotation t.require_mirroring ]
            ++ draw_wait_calls k, ?_, ?_, Or.inl ⟨rfl, rfl, rfl⟩⟩
          · intro hm
            rcases List.mem_append.mp hm with hm | hm
            · exact hhl hm
            · rcases mem_draw_wait_calls _ k hm with h | h | h <;> cases h
          · intro hm
            rcases List.mem_append.mp hm with hm | hm
            · exact hhu hm
            · rcases mem_draw_wait_calls _ k hm with h | h | h <;> cases h
        · rename_i draws reads hd
          obtain ⟨k, hk⟩ := draw_wait_calls_shape _ _ _ _ _ _ _ hd
          cases hs : o.stopped reads with
          | false =>
            simp only [hs, Bool.not_false, if_true] at h
            have htl : Event.current_frame_lock ∉
                [ Event.ort_orient_image t.target_orientation
                , Event.callback t.callback .m_current_frame ] := by simp
            have htu : Event.current_frame_unlock ∉
                [ Event.ort_orient_image t.target_orientation
                , Event.callback t.callback .m_current_frame ] := by simp
            split at h
            · simp only [Option.some.injEq, Prod.mk.injEq] at h
              obtain ⟨h1, h2⟩ := h
              subst h1 h2 hk
              refine ⟨rfl, rfl, Or.inr (Or.inr ⟨rfl, hc, ?_⟩)⟩
              exact ⟨_, not_mem_active_mid t k _ _ (Or.inl rfl) htl,
                not_mem_active_mid t k _ _ (Or.inr rfl) htu, Or.inr ⟨by simp, rfl, rfl⟩⟩
            · simp only [Option.some.injEq, Prod.mk.injEq] at h
              obtain ⟨h1, h2⟩ := h
              subst h1 h2 hk
              refine ⟨rfl, rfl, Or.inr (Or.inr ⟨rfl, hc, ?_⟩)⟩
              exact ⟨_, not_mem_active_mid t k _ _ (Or.inl rfl) (lock_not_mem_attempt o.throws_at _ htl),
                not_mem_active_mid t k _ _ (Or.inr rfl) (unlock_not_mem_attempt o.throws_at _ htu),
                Or.inl ⟨by simp, rfl, rfl⟩⟩
          | true =>
            simp only [hs, Bool.not_true, Bool.false_eq_true, if_false] at h
            have htl : Event.current_frame_lock ∉ [Event.callback t.callback .nullptr] := by
              simp
            have htu : Event.current_frame_unlock ∉ [Event.callback t.callback .nullptr] := by
              simp
            split at h
            · simp only [Option.some.injEq, Prod.mk.injEq] at h
              obtain ⟨h1, h2⟩ := h
              subst h1 h2 hk
              refine ⟨rfl, rfl, Or.inr (Or.inr ⟨rfl, hc, ?_⟩)⟩
              exact ⟨_, not_mem_active_mid t k _ _ (Or.inl rfl) htl,
                not_mem_active_mid t k _ _ (Or.inr rfl) htu, Or.inr ⟨by simp, rfl, rfl⟩⟩
            · simp only [Option.some.injEq, Prod.mk.injEq] at h
              obtain ⟨h1, h2⟩ := h
              subst h1 h2 hk
              refine ⟨rfl, rfl, Or.inr (Or.inr ⟨rfl, hc, ?_⟩)⟩
              exact ⟨_, not_mem_active_mid t k _ _ (Or.inl rfl) (lock_not_mem_attempt o.throws_at _ htl),
                not_mem_active_mid t k _ _ (Or.inr rfl) (unlock_not_mem_attempt o.throws_at _ htu),
                Or.inl ⟨by simp, rfl, rfl⟩⟩
      · simp only [Option.some.injEq, Prod.mk.injEq] at h
        obtain ⟨h1, h2⟩ := h
        subst h1 h2
        refine ⟨rfl, rfl, Or.inr (Or.inr ⟨rfl, hc, ?_⟩)⟩
        exact ⟨_, lock_not_mem_attempt _ _ hhl, unlock_not_mem_attempt _ _ hhu,
          Or.inl ⟨rfl, rfl, rfl⟩⟩
    · cases hcb : o.throws_at (Event.callback t.callback .nullptr) with
      | none =>
        rw [run_process_superseded s t o hl hc hcb] at h
        simp only [Option.some.injEq, Prod.mk.injEq] at h
        obtain ⟨h1, h2⟩ := h
        subst h1 h2
        exact ⟨rfl, rfl, Or.inr (Or.inl ⟨rfl, hc, rfl, hl, Or.inl rfl⟩)⟩
      | some x =>
        rw [run_process_superseded_throw s t o x hl hc hcb] at h
        simp only [Option.some.injEq, Prod.mk.injEq] at h
        obtain ⟨h1, h2⟩ := h
        subst h1 h2
        exact ⟨rfl, rfl, Or.inr (Or.inl ⟨rfl, hc, rfl, hl, Or.inr rfl⟩)⟩

/-- When no call of `draw()` throws, the loop ends by its condition. -/
theorem draw_wait_returns (draw : Nat → Int) (draw_throws : Nat → Option Exn)
    (stopped : Nat → Bool) (hthr : ∀ i, draw_throws i = none) :
    ∀ (fuel i : Nat) (evs : List Event) (r : Option Nat),
      draw_wait draw draw_throws stopped fuel i = some (evs, r) → ∃ reads, r = some reads := by
  intro fuel
  induction fuel with
  | zero =>
    intro i evs r h
    simp [draw_wait] at h
  | succ f ih =>
    intro i evs r h
    by_cases hcond : (decide (draw i < 0) && !stopped i) = true
    · simp only [draw_wait, hthr, hcond, if_true] at h
      cases hd : draw_wait draw draw_throws stopped f (i + 1) with
      | none => simp [hd] at h
      | some r1 =>
        obtain ⟨reads, hr⟩ := ih (i + 1) r1.1 r1.2 hd
        simp only [hd, Option.map_some', Option.some.injEq, Prod.mk.injEq] at h
        exact ⟨reads, by rw [← h.2, hr]⟩
    · simp only [draw_wait, hthr, hcond] at h
      simp only [Bool.false_eq_true, if_false, Option.some.injEq, Prod.mk.injEq] at h
      exact ⟨_, h.2.symm⟩

/-- What a finished worker task leaves behind: the queue and the destruction
flag are untouched, and the counter is one less or, after an exception,
unchanged. -/
theorem run_process_state (s s' : offscreen_effect_player) (t : process_task) (o : Oracle)
    (evs : List Event) (h : run_process s t o = some (evs, s')) :
    (s'.m_incoming_frame_queue_task_count = s.m_incoming_frame_queue_task_count - 1
        ∨ s'.m_incoming_frame_queue_task_count = s.m_incoming_frame_queue_task_count)
      ∧ s'.m_scheduler = s.m_scheduler ∧ s'.m_destroy = s.m_destroy := by
  obtain ⟨hq, hd, hcases⟩ := run_process_outcome s s' t o evs h
  refine ⟨?_, hq, hd⟩
  rcases hcases with ⟨_, _, _, hc⟩ | ⟨_, _, _, _, hc⟩ | ⟨_, _, mid, _, _, hc⟩
  · exact Or.inl hc
  · exact hc
  · rcases hc with ⟨_, _, hc⟩ | ⟨_, _, hc⟩
    · exact Or.inr hc
    · exact Or.inl hc

/-- A worker task all of whose calls return and that finishes has run through
one of the four paths to its last statement: it made the calls of that path,
left the counter one less and the holder unlocked unless it found it locked. -/
theorem run_process_returns (s s' : offscreen_effect_player) (t : process_task) (o : Oracle)
    (evs : List Event) (hret : o.returns) (h : run_process s t o = some (evs, s')) :
    s'.m_incoming_frame_queue_task_count = s.m_incoming_frame_queue_task_count - 1
      ∧ (s.m_current_frame_locked = true →
          evs = [Event.cout lock_warning] ∧ s'.m_current_frame_locked = true)
      ∧ ((s.m_current_frame_locked = false
            ∧ ¬ (s.m_incoming_frame_queue_task_count = 1 ∧ s.m_ep_stopped = false)) →
          evs = [Event.callback t.callback .nullptr] ∧ s'.m_current_frame_locked = false)
      ∧ ((s.m_current_frame_locked = false ∧ s.m_incoming_frame_queue_task_count = 1
            ∧ s.m_ep_stopped = false) →
          ∃ k reads,
            evs = active_head t ++ draw_wait_calls k
              ++ (if o.stopped reads then
                    [Event.callback t.callback .nullptr, Event.current_frame_unlock]
                  else
                    [ Event.ort_orient_image t.target_orientation
                    , Event.callback t.callback .m_current_frame
                    , Event.current_frame_unlock ])
            ∧ s'.m_current_frame_locked = false) := by
  cases hl : s.m_current_frame_locked with
  | true =>
    rw [run_process_locked s t o hl] at h
    simp only [Option.some.injEq, Prod.mk.injEq] at h
    obtain ⟨h1, h2⟩ := h
    subst h1 h2
    refine ⟨rfl, fun _ => ⟨rfl, hl⟩, ?_, ?_⟩
    · intro hh; exact absurd hh.1 (by simp)
    · intro hh; exact absurd hh.1 (by simp)
  | false =>
    by_cases hc : s.m_incoming_frame_queue_task_count = 1 ∧ s.m_ep_stopped = false
    · cases hd : draw_wait o.draw o.draw_throws o.stopped o.fuel 0 with
      | none => rw [run_process_active_none s t o hret hl hc.1 hc.2 hd] at h; cases h
      | some r =>
        obtain ⟨draws, r2⟩ := r
        obtain ⟨reads, hr⟩ := draw_wait_returns _ _ _ hret.2 _ _ _ _ hd
        subst hr
        obtain ⟨k, hk⟩ := draw_wait_calls_shape _ _ _ _ _ _ _ hd
        subst hk
        rw [run_process_active s t o _ reads hret hl hc.1 hc.2 hd] at h
        simp only [Option.some.injEq, Prod.mk.injEq] at h
        obtain ⟨h1, h2⟩ := h
        subst h1 h2
        refine ⟨by simp [hc.1], fun hh => (by cases hh), ?_, ?_⟩
        · intro hh; exact absurd hc hh.2
        · intro _; exact ⟨k, reads, rfl, rfl⟩
    · rw [run_process_superseded s t o hl hc (throws_at_of_returns o hret _)] at h
      simp only [Option.some.injEq, Prod.mk.injEq] at h
      obtain ⟨h1, h2⟩ := h
      subst h1 h2
      refine ⟨rfl, fun hh => (by cases hh), fun _ => ⟨rfl, hl⟩, ?_⟩
      intro hh
      exact absurd hh.2 hc

/-- A worker task that is not an image-processing task changes nothing in the
state. -/
theorem run_task_other (s s' : offscreen_effect_player) (t : Task) (o : Oracle)
    (evs : List Event) (ht : t.is_process = false) (h : run_task s t o = some (evs, s')) :
    s' = s := by
  cases t <;> simp [run_task, Task.is_process] at h ht <;> exact h.2.symm

/-- A worker task runs to its end on the locked-skip and superseded paths, and
on the active path when some evaluation of the loop condition within the fuel
ends the loop. -/
theorem run_process_isSome (s : offscreen_effect_player) (t : process_task) (o : Oracle)
    (h : s.m_current_frame_locked = true
      ∨ ¬ (s.m_incoming_frame_queue_task_count = 1 ∧ s.m_ep_stopped = false)
      ∨ ∃ k, k < o.fuel ∧ (0 ≤ o.draw k ∨ o.stopped k = true)) :
    (run_process s t o).isSome = true := by
  cases hl : s.m_current_frame_locked with
  | true => rw [run_process_locked s t o hl]; rfl
  | false =>
    by_cases hc : s.m_incoming_frame_queue_task_count = 1 ∧ s.m_ep_stopped = false
    · rcases h with h | h | h
      · rw [hl] at h; cases h
      · exact absurd hc h
      · obtain ⟨k, hk, hhit⟩ := h
        have hsome := draw_wait_isSome o.draw o.draw_throws o.stopped o.fuel 0
          ⟨k, hk, by simpa using hhit⟩
        have htest : (s.m_incoming_frame_queue_task_count == 1 && !s.m_ep_stopped) = true := by
          simp [hc.1, hc.2]
        simp only [run_process, is_locked, hl, htest, Bool.false_eq_true, if_false, if_true]
        split
        · cases hd : draw_wait o.draw o.draw_throws o.stopped o.fuel 0 with
          | none => rw [hd] at hsome; cases hsome
          | some r =>
            obtain ⟨draws, r2⟩ := r
            cases r2 with
            | none => rfl
            | some reads =>
              simp only
              split_ifs <;> rfl
        · rfl
    · simp only [run_process, is_locked, hl, superseded_test s hc, Bool.false_eq_true, if_false]
      split <;> rfl

/-! ## Reachable states -/

/-- Counting the image-processing tasks of a queue extended by one task. -/
theorem pending_process_append (queue : List Task) (t : Task) :
    pending_process (queue ++ [t]) = pending_process queue + (if t.is_process then 1 else 0) := by
  cases h : t.is_process <;> simp [pending_process, List.filter_append, h]

/-- Counting the image-processing tasks of a queue with its head taken off. -/
theorem pending_process_cons (queue : List Task) (t : Task) :
    pending_process (t :: queue) = pending_process queue + (if t.is_process then 1 else 0) := by
  cases h : t.is_process <;> simp [pending_process, List.filter_cons, h]

/-- The effect of one action on the counter and on the number of pending
image-processing tasks: nothing; or an accepted request, which needs the
counter below 5 and adds one to both; or a worker task that returns, which
takes one off both; or a worker task left by an exception, which takes one off
the pending tasks only. -/
theorem step_effect (s s' : offscreen_effect_player) (a : Action) (evs : List Event)
    (h : step s a = some (evs, s')) :
    (s'.m_incoming_frame_queue_task_count = s.m_incoming_frame_queue_task_count
        ∧ pending_process s'.m_scheduler = pending_process s.m_scheduler)
      ∨ (s.m_incoming_frame_queue_task_count < 5
        ∧ s'.m_incoming_frame_queue_task_count = s.m_incoming_frame_queue_task_count + 1
        ∧ pending_process s'.m_scheduler = pending_process s.m_scheduler + 1)
      ∨ (s'.m_incoming_frame_queue_task_count = s.m_incoming_frame_queue_task_count - 1
        ∧ pending_process s.m_scheduler = pending_process s'.m_scheduler + 1)
      ∨ (s'.m_incoming_frame_queue_task_count = s.m_incoming_frame_queue_task_count
        ∧ pending_process s.m_scheduler = pending_process s'.m_scheduler + 1
        ∧ ¬ a.returns) := by
  cases a with
  | process_image_async image input_rotation require_mirroring callback target_orientation =>
    simp only [step, Option.some.injEq] at h
    have h2 : (process_image_async s image input_rotation require_mirroring callback
        target_orientation).2.2 = s' := by rw [h]
    unfold process_image_async at h2
    split_ifs at h2 with hd hfull
    · rw [← h2]; exact Or.inl ⟨rfl, rfl⟩
    · rw [← h2]; exact Or.inl ⟨rfl, rfl⟩
    · rw [← h2]
      simp only [incoming_frame_queue_task_max, ge_iff_le, not_le] at hfull
      refine Or.inr (Or.inl ⟨hfull, rfl, ?_⟩)
      simp [enqueue, pending_process_append, Task.is_process]
  | worker o =>
    simp only [step, worker_step] at h
    cases hq : s.m_scheduler with
    | nil => simp [hq] at h
    | cons t rest =>
      simp only [hq] at h
      rw [pending_process_cons]
      cases t with
      | process p =>
        simp only [run_task] at h
        obtain ⟨hc, hs, _⟩ := run_process_state _ _ _ _ _ h
        simp only at hc hs
        rw [hs]
        simp only [Task.is_process, if_true]
        by_cases hret : o.returns
        · exact Or.inr (Or.inr (Or.inl ⟨(run_process_returns _ _ _ _ _ hret h).1, trivial⟩))
        · rcases hc with hc | hc
          · exact Or.inr (Or.inr (Or.inl ⟨hc, trivial⟩))
          · exact Or.inr (Or.inr (Or.inr ⟨hc, trivial, hret⟩))
      | surface_changed width height =>
        have := run_task_other _ _ (Task.surface_changed width height) _ _ rfl h
        rw [this]
        exact Or.inl ⟨rfl, by simp [Task.is_process]⟩
      | load_effect effect =>
        have := run_task_other _ _ (Task.load_effect effect) _ _ rfl h
        rw [this]
        exact Or.inl ⟨rfl, by simp [Task.is_process]⟩
      | call_js_method method param =>
        have := run_task_other _ _ (Task.call_js_method method param) _ _ rfl h
        rw [this]
        exact Or.inl ⟨rfl, by simp [Task.is_process]⟩
      | eval_js script callback =>
        have := run_task_other _ _ (Task.eval_js script callback) _ _ rfl h
        rw [this]
        exact Or.inl ⟨rfl, by simp [Task.is_process]⟩
      | teardown =>
        have := run_task_other _ _ Task.teardown _ _ rfl h
        rw [this]
        exact Or.inl ⟨rfl, by simp [Task.is_process]⟩
  | surface_changed width height =>
    simp only [step, Option.some.injEq, Prod.mk.injEq] at h
    rw [← h.2]
    exact Or.inl ⟨rfl, by simp [surface_changed, enqueue, pending_process_append,
      Task.is_process]⟩
  | load_effect effect_path =>
    simp only [step, Option.some.injEq, Prod.mk.injEq] at h
    rw [← h.2]
    exact Or.inl ⟨rfl, by simp [load_effect, enqueue, pending_process_append, Task.is_process]⟩
  | unload_effect =>
    simp only [step, Option.some.injEq, Prod.mk.injEq] at h
    rw [← h.2]
    exact Or.inl ⟨rfl, by simp [unload_effect, load_effect, enqueue, pending_process_append,
      Task.is_process]⟩
  | call_js_method method param =>
    simp only [step, Option.some.injEq, Prod.mk.injEq] at h
    rw [← h.2]
    exact Or.inl ⟨rfl, by simp [call_js_method, enqueue, pending_process_append,
      Task.is_process]⟩
  | eval_js script result_callback =>
    simp only [step, Option.some.injEq, Prod.mk.injEq] at h
    rw [← h.2]
    exact Or.inl ⟨rfl, by simp [eval_js, enqueue, pending_process_append, Task.is_process]⟩
  | destructor =>
    simp only [step, Option.some.injEq, Prod.mk.injEq] at h
    rw [← h.2]
    exact Or.inl ⟨rfl, by simp [destructor, enqueue, pending_process_append, Task.is_process]⟩
  | pause =>
    simp only [step, pause, Option.some.injEq, Prod.mk.injEq] at h
    rw [← h.2]
    exact Or.inl ⟨rfl, rfl⟩
  | resume =>
    simp only [step, resume, Option.some.injEq, Prod.mk.injEq] at h
    rw [← h.2]
    exact Or.inl ⟨rfl, rfl⟩
  | stop =>
    simp only [step, stop, Option.some.injEq, Prod.mk.injEq] at h
    rw [← h.2]
    exact Or.inl ⟨rfl, rfl⟩
  | consumer_lock =>
    simp only [step, lock, Option.some.injEq, Prod.mk.injEq] at h
    rw [← h.2]
    exact Or.inl ⟨rfl, rfl⟩
  | consumer_unlock =>
    simp only [step, unlock, Option.some.injEq, Prod.mk.injEq] at h
    rw [← h.2]
    exact Or.inl ⟨rfl, rfl⟩

/-- Every action keeps the invariant. -/
theorem step_Inv (s s' : offscreen_effect_player) (a : Action) (evs : List Event)
    (hinv : Inv s) (h : step s a = some (evs, s')) : Inv s' := by
  obtain ⟨hcount, hmax⟩ := hinv
  rcases step_effect s s' a evs h with ⟨h1, h2⟩ | ⟨h0, h1, h2⟩ | ⟨h1, h2⟩ | ⟨h1, h2, _⟩
  · exact ⟨by rw [h1, h2]; exact hcount, by rw [h1]; exact hmax⟩
  · exact ⟨by rw [h1, h2]; push_cast; omega, by rw [h1]; omega⟩
  · rw [h2] at hcount
    push_cast at hcount
    exact ⟨by rw [h1]; omega, by rw [h1]; omega⟩
  · rw [h2] at hcount
    push_cast at hcount
    exact ⟨by rw [h1]; omega, by rw [h1]; exact hmax⟩

/-- A run keeps the invariant. -/
theorem run_Inv : ∀ (acts : List Action) (s s' : offscreen_effect_player) (evs : List Event),
    Inv s → run s acts = some (evs, s') → Inv s' := by
  intro acts
  induction acts with
  | nil =>
    intro s s' evs hinv h
    simp only [run, Option.some.injEq, Prod.mk.injEq] at h
    rw [← h.2]
    exact hinv
  | cons a rest ih =>
    intro s s' evs hinv h
    simp only [run] at h
    cases hs : step s a with
    | none => simp [hs] at h
    | some r =>
      obtain ⟨evs1, s1⟩ := r
      simp only [hs] at h
      cases hr : run s1 rest with
      | none => simp [hr] at h
      | some r2 =>
        obtain ⟨evs2, s2⟩ := r2
        simp only [hr, Option.some.injEq, Prod.mk.injEq] at h
        rw [← h.2]
        exact ih s1 s2 evs2 (step_Inv s s1 a evs1 hinv hs) hr

/-- Every reachable state satisfies the invariant. -/
theorem Reachable_Inv (s : offscreen_effect_player) (h : Reachable s) : Inv s := by
  obtain ⟨acts, evs, hrun⟩ := h
  refine run_Inv acts offscreen_effect_player.fresh s evs ?_ hrun
  exact ⟨by simp [offscreen_effect_player.fresh, pending_process], by
    simp [offscreen_effect_player.fresh]⟩

/-- C5: `process_image_async` returns true exactly when the destruction flag is
unset and the counter is below 5; it then adds one to the counter and appends
exactly one task to the queue, and otherwise leaves the state as it is.  In
every reachable state the counter lies between 0 and 5, a request made at 5 is
rejected, and a request made at 4 or fewer (flag unset) is accepted. -/
theorem process_image_async_accepts_iff :
    (∀ (s : offscreen_effect_player) image input_rotation require_mirroring callback
        target_orientation,
        ((process_image_async s image input_rotation require_mirroring callback
            target_orientation).1 = true
          ↔ s.m_destroy = false ∧ s.m_incoming_frame_queue_task_count < 5)
        ∧ ((process_image_async s image input_rotation require_mirroring callback
            target_orientation).1 = true →
          (process_image_async s image input_rotation require_mirroring callback
              target_orientation).2.2
            = { s with
                m_incoming_frame_queue_task_count := s.m_incoming_frame_queue_task_count + 1
                m_scheduler := s.m_scheduler
                  ++ [Task.process (make_process_task image input_rotation require_mirroring
                      callback target_orientation)] })
        ∧ ((process_image_async s image input_rotation require_mirroring callback
            target_orientation).1 = false →
          (process_image_async s image input_rotation require_mirroring callback
              target_orientation).2.2 = s))
      ∧ (∀ s : offscreen_effect_player, Reachable s →
        0 ≤ s.m_incoming_frame_queue_task_count
        ∧ s.m_incoming_frame_queue_task_count ≤ 5
        ∧ (∀ image input_rotation require_mirroring callback target_orientation,
            s.m_incoming_frame_queue_task_count = 5 →
            (process_image_async s image input_rotation require_mirroring callback
              target_orientation).1 = false)
        ∧ (∀ image input_rotation require_mirroring callback target_orientation,
            s.m_destroy = false → s.m_incoming_frame_queue_task_count ≤ 4 →
            (process_image_async s image input_rotation require_mirroring callback
              target_orientation).1 = true)) := by
  have key : ∀ (s : offscreen_effect_player) image input_rotation require_mirroring callback
      target_orientation,
      ((process_image_async s image input_rotation require_mirroring callback
          target_orientation).1 = true
        ↔ s.m_destroy = false ∧ s.m_incoming_frame_queue_task_count < 5) := by
    intro s image input_rotation require_mirroring callback target_orientation
    unfold process_image_async
    split_ifs with hd hfull
    · simp [hd]
    · simp only [incoming_frame_queue_task_max, ge_iff_le] at hfull
      simp only [Bool.false_eq_true, false_iff, not_and, not_lt]
      intro _
      exact hfull
    · simp only [incoming_frame_queue_task_max, ge_iff_le, not_le] at hfull
      simp only [true_iff]
      exact ⟨by simpa using hd, hfull⟩
  refine ⟨?_, ?_⟩
  · intro s image input_rotation require_mirroring callback target_orientation
    refine ⟨key s image input_rotation require_mirroring callback target_orientation, ?_, ?_⟩
    · unfold process_image_async
      split_ifs with hd hfull
      · intro h; cases h
      · intro h; cases h
      · intro _; rfl
    · unfold process_image_async
      split_ifs with hd hfull
      · intro _; rfl
      · intro _; rfl
      · intro h; cases h
  · intro s hs
    obtain ⟨hcount, hmax⟩ := Reachable_Inv s hs
    have hnn : (0 : Int) ≤ (pending_process s.m_scheduler : Int) := Int.natCast_nonneg _
    refine ⟨by omega, hmax, ?_, ?_⟩
    · intro image input_rotation require_mirroring callback target_orientation h5
      cases hr : (process_image_async s image input_rotation require_mirroring callback
        target_orientation).1 with
      | false => rfl
      | true =>
        have := (key s image input_rotation require_mirroring callback target_orientation).1 hr
        omega
    · intro image input_rotation require_mirroring callback target_orientation hd h4
      exact (key s image input_rotation require_mirroring callback target_orientation).2
        ⟨hd, by omega⟩

/-- Witness of C5: with requests 2 to 5 pending after the first of five has
been run, the counter is 4 and a sixth request is accepted. -/
theorem process_image_async_accepts_iff_witness :
    Reachable four_pending
      ∧ (0 ≤ four_pending.m_incoming_frame_queue_task_count
        ∧ four_pending.m_incoming_frame_queue_task_count ≤ 5)
      ∧ (process_image_async four_pending 6 .deg0 false (some 6) none).1 = true :=
  have hr : Reachable four_pending :=
    ⟨five_requests ++ [Action.worker ready_oracle],
      [Event.callback (.user 1) .nullptr], rfl⟩
  ⟨hr,
    ⟨(process_image_async_accepts_iff.2 four_pending hr).1,
      (process_image_async_accepts_iff.2 four_pending hr).2.1⟩,
    (process_image_async_accepts_iff.2 four_pending hr).2.2.2 6 .deg0 false (some 6) none rfl
      (by decide)⟩

/-- C2: a first request is processed and delivered, the receiver locks the
delivered frame, and a second request, with callback 2, is accepted.  When the
worker runs its task the holder is locked: the task prints the warning,
decrements the counter and returns without invoking callback 2. -/
theorem locked_holder_task_skips_callback :
    ∃ evs s, run offscreen_effect_player.fresh held_frame_actions = some (evs, s)
      ∧ s.m_current_frame_locked = true
      ∧ s.m_scheduler = [Task.process (make_process_task 2 .deg0 false (some 2) none)]
      ∧ worker_step s ready_oracle
        = some ([Event.cout lock_warning],
            { s with m_incoming_frame_queue_task_count := 0, m_scheduler := [] })
      ∧ callback_count (.user 2) [Event.cout lock_warning] = 0 :=
  ⟨_, _, rfl, rfl, rfl, rfl, rfl⟩

/-- Replaying the trace of a finished worker task on the lock flag it started
with never locks a locked holder nor unlocks an unlocked one, and ends with the
flag the task leaves, also when the task is left by an exception. -/
theorem run_process_lock_replay (s s' : offscreen_effect_player) (t : process_task) (o : Oracle)
    (evs : List Event) (h : run_process s t o = some (evs, s')) :
    lock_replay s.m_current_frame_locked evs = some s'.m_current_frame_locked := by
  obtain ⟨_, _, hcases⟩ := run_process_outcome s s' t o evs h
  rcases hcases with ⟨hl, hevs, hl', _⟩ | ⟨hl, _, hevs, hl', _⟩ | ⟨hl, _, mid, hnl, hnu, hc⟩
  · rw [hl, hevs, hl']; rfl
  · rw [hl, hevs, hl']; rfl
  · rcases hc with ⟨hevs, hl', _⟩ | ⟨hevs, hl', _⟩
    · rw [hl, hevs, hl']
      simp only [lock_replay, Bool.false_eq_true, if_false]
      exact lock_replay_untouched mid hnl hnu true
    · rw [hl, hevs, hl']
      simp only [lock_replay, Bool.false_eq_true, if_false]
      rw [lock_replay_append, lock_replay_untouched mid hnl hnu true]
      rfl

/-- The same for any task of the queue: the other tasks never touch the lock.
A task all of whose calls return leaves an unlocked holder unlocked. -/
theorem run_task_lock_replay (s s' : offscreen_effect_player) (t : Task) (o : Oracle)
    (evs : List Event) (h : run_task s t o = some (evs, s')) :
    lock_replay s.m_current_frame_locked evs = some s'.m_current_frame_locked
      ∧ (o.returns → s.m_current_frame_locked = false → s'.m_current_frame_locked = false) := by
  have hctl : ∀ calls : List Event, Event.current_frame_lock ∉ calls →
      Event.current_frame_unlock ∉ calls →
      some ((attempt o.throws_at calls).1, s) = some (evs, s') →
      lock_replay s.m_current_frame_locked evs = some s'.m_current_frame_locked
        ∧ (o.returns → s.m_current_frame_locked = false → s'.m_current_frame_locked = false) := by
    intro calls h1 h2 he
    simp only [Option.some.injEq, Prod.mk.injEq] at he
    obtain ⟨he1, he2⟩ := he
    subst he1 he2
    exact ⟨lock_replay_untouched _ (lock_not_mem_attempt o.throws_at calls h1)
      (unlock_not_mem_attempt o.throws_at calls h2) _, fun _ hs => hs⟩
  cases t with
  | process p =>
    refine ⟨run_process_lock_replay s s' p o evs h, ?_⟩
    intro hret hl
    obtain ⟨_, _, h2, h3⟩ := run_process_returns s s' p o evs hret h
    by_cases hc : s.m_incoming_frame_queue_task_count = 1 ∧ s.m_ep_stopped = false
    · obtain ⟨_, _, _, hfin⟩ := h3 ⟨hl, hc.1, hc.2⟩
      exact hfin
    · exact (h2 ⟨hl, hc⟩).2
  | surface_changed width height => exact hctl _ (by simp) (by simp) h
  | load_effect effect => exact hctl _ (by simp) (by simp) h
  | call_js_method method param => exact hctl _ (by simp) (by simp) h
  | eval_js script callback => exact hctl _ (by simp) (by simp) h
  | teardown => exact hctl _ (by simp) (by simp) h

/-- The same for a whole run of the worker. -/
theorem worker_run_lock_replay :
    ∀ (os : List Oracle) (s s' : offscreen_effect_player) (traces : List (List Event)),
      worker_run s os = some (traces, s') →
      lock_replay s.m_current_frame_locked traces.flatten = some s'.m_current_frame_locked
        ∧ ((∀ o, o ∈ os → o.returns) →
          s.m_current_frame_locked = false → s'.m_current_frame_locked = false) := by
  intro os
  induction os with
  | nil =>
    intro s s' traces h
    simp only [worker_run, Option.some.injEq, Prod.mk.injEq] at h
    obtain ⟨h1, h2⟩ := h
    subst h1 h2
    exact ⟨rfl, fun _ hs => hs⟩
  | cons o os ih =>
    intro s s' traces h
    simp only [worker_run] at h
    cases hs : worker_step s o with
    | none => simp [hs] at h
    | some r =>
      obtain ⟨evs, s1⟩ := r
      simp only [hs] at h
      cases hr : worker_run s1 os with
      | none => simp [hr] at h
      | some r2 =>
        obtain ⟨traces2, s2⟩ := r2
        simp only [hr, Option.some.injEq, Prod.mk.injEq] at h
        obtain ⟨h1, h2⟩ := h
        subst h1 h2
        obtain ⟨ih1, ih2⟩ := ih s1 s2 traces2 hr
        have hstep : lock_replay s.m_current_frame_locked evs = some s1.m_current_frame_locked
            ∧ (o.returns → s.m_current_frame_locked = false →
              s1.m_current_frame_locked = false) := by
          simp only [worker_step] at hs
          cases hq : s.m_scheduler with
          | nil => simp [hq] at hs
          | cons t rest =>
            simp only [hq] at hs
            exact run_task_lock_replay { s with m_scheduler := rest } s1 t o evs hs
        refine ⟨?_, fun hret h0 =>
          ih2 (fun o1 h1 => hret o1 (List.mem_cons_of_mem _ h1))
            (hstep.2 (hret o (List.mem_cons_self _ _)) h0)⟩
        rw [List.flatten_cons, lock_replay_append, hstep.1]
        exact ih1

/-- C10, as stated, fails: a task starts with the holder unlocked and takes the
active path; its second call of `m_ep->draw()` throws.  The lambda is left
without calling `unlock()`, and the holder stays locked. -/
theorem throwing_task_keeps_lock :
    one_pending.m_current_frame_locked = false
      ∧ run_process one_pending (make_process_task 9 .deg0 false (some 3) none)
          second_draw_throws
        = some
            ([ Event.current_frame_lock, Event.ort_activate_context, Event.ort_prepare_rendering
             , Event.ep_push_frame 9 .deg0 false
             , Event.ep_draw, Event.yield, Event.sleep_for 10
             , Event.ep_draw ],
              { one_pending with m_current_frame_locked := true }) := by
  exact ⟨rfl, rfl⟩

/-- C10, amended: a finished worker task calls `lock()` only on the active
path, which it enters only after finding the holder unlocked, and there `lock()`
is its first call and is not repeated.  When every call the task makes to the
render target, the effect player and the user callback returns, the trace of
the active path is `lock`, then calls that are neither `lock` nor `unlock`,
then `unlock`, whether the result was delivered or the player was stopped
during the wait, and the holder ends unlocked.  On the locked-skip and
superseded paths the task calls neither and leaves the lock flag as it was.
The active path does come to its end when some evaluation of the loop condition
within the fuel ends the loop.  Hence in every run of the worker the holder is
never locked while locked nor unlocked while unlocked, and a run in which all
those calls return and that starts with the holder unlocked ends with it
unlocked. -/
theorem holder_lock_discipline :
    (∀ (s s' : offscreen_effect_player) (t : process_task) (o : Oracle) (evs : List Event),
        run_process s t o = some (evs, s') →
        ((s.m_current_frame_locked = false ∧ s.m_incoming_frame_queue_task_count = 1
            ∧ s.m_ep_stopped = false) →
          (∃ rest, evs = Event.current_frame_lock :: rest ∧ Event.current_frame_lock ∉ rest)
          ∧ (o.returns →
            ∃ mid, evs = Event.current_frame_lock :: (mid ++ [Event.current_frame_unlock])
              ∧ Event.current_frame_lock ∉ mid ∧ Event.current_frame_unlock ∉ mid
              ∧ s'.m_current_frame_locked = false))
        ∧ (¬ (s.m_current_frame_locked = false ∧ s.m_incoming_frame_queue_task_count = 1
            ∧ s.m_ep_stopped = false) →
          Event.current_frame_lock ∉ evs ∧ Event.current_frame_unlock ∉ evs
            ∧ s'.m_current_frame_locked = s.m_current_frame_locked))
      ∧ (∀ (s : offscreen_effect_player) (t : process_task) (o : Oracle),
        (∃ k, k < o.fuel ∧ (0 ≤ o.draw k ∨ o.stopped k = true)) →
        (run_process s t o).isSome = true)
      ∧ (∀ (os : List Oracle) (s s' : offscreen_effect_player) (traces : List (List Event)),
        worker_run s os = some (traces, s') →
        lock_replay s.m_current_frame_locked traces.flatten = some s'.m_current_frame_locked
          ∧ ((∀ o, o ∈ os → o.returns) →
            s.m_current_frame_locked = false → s'.m_current_frame_locked = false)) := by
  refine ⟨?_, ?_, ?_⟩
  · intro s s' t o evs h
    obtain ⟨_, _, hcases⟩ := run_process_outcome s s' t o evs h
    refine ⟨?_, ?_⟩
    · intro hcond
      rcases hcases with ⟨hl, _⟩ | ⟨_, hn, _⟩ | ⟨_, _, mid, hnl, hnu, hc⟩
      · rw [hcond.1] at hl; cases hl
      · exact absurd hcond.2 hn
      · refine ⟨?_, ?_⟩
        · rcases hc with ⟨hevs, _⟩ | ⟨hevs, _⟩
          · exact ⟨mid, hevs, hnl⟩
          · refine ⟨mid ++ [Event.current_frame_unlock], hevs, ?_⟩
            intro hm
            rcases List.mem_append.mp hm with hm | hm
            · exact hnl hm
            · simp at hm
        · intro hret
          rcases hc with ⟨_, _, hsame⟩ | ⟨hevs, hl', _⟩
          · have hdec := (run_process_returns s s' t o evs hret h).1
            rw [hsame] at hdec
            omega
          · exact ⟨mid, hevs, hnl, hnu, hl'⟩
    · intro hn
      rcases hcases with ⟨hl, hevs, hl', _⟩ | ⟨hl, _, hevs, hl', _⟩ | ⟨hl, hc, _⟩
      · rw [hevs, hl, hl']
        exact ⟨by simp, by simp, rfl⟩
      · rw [hevs, hl, hl']
        exact ⟨by simp, by simp, rfl⟩
      · exact absurd ⟨hl, hc.1, hc.2⟩ hn
  · intro s t o h
    exact run_process_isSome s t o (Or.inr (Or.inr h))
  · exact worker_run_lock_replay

/-- Witness of the amended C10: the worker runs the two tasks of two
back-to-back requests on a fresh player and every call returns; the first is
superseded, the second locks and unlocks the holder once, and the holder ends
unlocked. -/
theorem holder_lock_discipline_witness :
    worker_run
        { one_pending with
          m_incoming_frame_queue_task_count := 2
          m_scheduler :=
            [ Task.process (make_process_task 1 .deg0 false (some 1) none)
            , Task.process (make_process_task 2 .deg0 false (some 2) none) ] }
        [ready_oracle, ready_oracle]
      = some
          ([ [Event.callback (.user 1) .nullptr]
           , [ Event.current_frame_lock, Event.ort_activate_context, Event.ort_prepare_rendering
             , Event.ep_push_frame 2 .deg0 false, Event.ep_draw, Event.ort_orient_image .deg0
             , Event.callback (.user 2) .m_current_frame, Event.current_frame_unlock ] ],
            { one_pending with m_incoming_frame_queue_task_count := 0 })
      ∧ lock_replay false
          [ Event.callback (.user 1) .nullptr
          , Event.current_frame_lock, Event.ort_activate_context, Event.ort_prepare_rendering
          , Event.ep_push_frame 2 .deg0 false, Event.ep_draw, Event.ort_orient_image .deg0
          , Event.callback (.user 2) .m_current_frame, Event.current_frame_unlock ]
        = some false
      ∧ ({ one_pending with m_incoming_frame_queue_task_count := 0 }
          : offscreen_effect_player).m_current_frame_locked = false :=
  have h := holder_lock_discipline.2.2 [ready_oracle, ready_oracle]
    { one_pending with
      m_incoming_frame_queue_task_count := 2
      m_scheduler :=
        [ Task.process (make_process_task 1 .deg0 false (some 1) none)
        , Task.process (make_process_task 2 .deg0 false (some 2) none) ] }
    { one_pending with m_incoming_frame_queue_task_count := 0 } _ rfl
  ⟨rfl, h.1,
    h.2
      (by
        intro o ho
        simp only [List.mem_cons, List.mem_singleton, List.not_mem_nil, or_false, or_self] at ho
        subst ho
        exact ⟨fun _ => rfl, fun _ => rfl⟩)
      rfl⟩

/-! ## Frame skipping -/

end bnb.oep
